import Mathlib

/-!
Verification of the mindmesh backend (src/backend/main.py).

The service wraps two external black boxes: a CLIP model that maps a text
string or a fetched image to a feature vector which the code then
L2-normalizes, and an HTTP image fetcher.  We embed them as an oracle
environment `ClipEnv` whose operations return the unit-normalized embedding
vector (a list of rationals) or the exception message `str(e)` raised by the
failing call:

* `textEmbed s` models `clip_processor(text=...)` + `get_text_features` +
  `features / features.norm(...)` for one string; the code's single batched
  call over a list returns one row per input and fails iff some item fails,
  modelled by `embedTexts`.
* `imageEmbed url` models `requests.get` + `Image.open(...).convert("RGB")
  .resize((224,224))` + `clip_processor(images=...)` + `get_image_features` +
  normalization; any network / decode / inference exception is the
  `Except.error` case.

`torch.nn.functional.cosine_similarity` applied to vectors that were already
normalized to unit L2 norm is their dot product, so similarity scores are
modelled by `dot`.  The code only ever uses `s.strip()` for its truthiness
(`if text.strip():` and the like), which holds exactly when `s` has a
character that is not whitespace; this is modelled by `hasContent`.  Python
list indexing `xs[i]` is modelled by `List.getD`; the alignment theorems
show every such access is in bounds. -/

namespace MindMesh

/-- Dot product of two embedding vectors; equals the cosine similarity the
code computes, because both arguments were normalized to unit L2 norm. -/
def dot (a b : List ℚ) : ℚ :=
  ((a.zip b).map (fun p => p.1 * p.2)).sum

/-- Truthiness of Python `s.strip()`: true exactly when `s` contains a
character that is not whitespace, i.e. when stripping leaves a non-empty
string. -/
def hasContent (s : String) : Bool :=
  s.data.any (fun c => !c.isWhitespace)

/-- Tail of `torch.argmax`: scan the remaining scores (the next one carries
index `i`) keeping the current best index `bi` with best value `b`; a later
score replaces the best only when strictly larger, so the first occurrence
of the maximum wins, as documented for `torch.argmax`. -/
def argmaxAux : Nat → Nat → ℚ → List ℚ → Nat
  | _, bi, _, [] => bi
  | i, bi, b, x :: xs => if b < x then argmaxAux (i + 1) i x xs else argmaxAux (i + 1) bi b xs

/-- Index of the first maximal score, as `torch.argmax` returns it (0 on an
empty score list, which the code never hits: candidate sets are nonempty). -/
def argmaxIdx : List ℚ → Nat
  | [] => 0
  | x :: xs => argmaxAux 1 0 x xs

/-- One-to-many `torch.nn.functional.cosine_similarity`: the score of one
query vector against each vector of a candidate matrix, in candidate order
(all vectors unit normalized, so each score is a dot product). -/
def cosine_similarities (v : List ℚ) (cands : List (List ℚ)) : List ℚ :=
  cands.map (fun c => dot v c)

/-- The external collaborators: the CLIP text embedder and the image
fetch-and-embed pipeline, both returning the unit-normalized vector or the
message of the exception they raise. -/
structure ClipEnv where
  textEmbed : String → Except String (List ℚ)
  imageEmbed : String → Except String (List ℚ)

/-- One entry of the `/group-threshold` response:
`{"text": ..., "matches": [...]}`. -/
structure Group where
  text : String
  «matches» : List String
  deriving DecidableEq

/-- One record of the `/classify-art-style` response; `error` is `none` for
the success dict (which has no `error` key) and `some msg` for the failure
dict. -/
structure StyleResult where
  image : String
  style : String
  confidence : ℚ
  error : Option String
  deriving DecidableEq

/-- One record of the `/classify-mood-theme` response; the failure dict for
an image carries only `type`, `content` and `error`, so the four
classification fields are `Option`s that are `none` exactly when the key is
absent. -/
structure MoodResult where
  type : String
  content : String
  mood : Option String
  theme : Option String
  mood_confidence : Option ℚ
  theme_confidence : Option ℚ
  error : Option String
  deriving DecidableEq

/-- The batched `get_text_features` call on a list of strings: one embedding
row per input string, failing iff the underlying model call fails. -/
def embedTexts (env : ClipEnv) : List String → Except String (List (List ℚ))
  | [] => Except.ok []
  | t :: ts =>
    match env.textEmbed t with
    | Except.error e => Except.error e
    | Except.ok v =>
      match embedTexts env ts with
      | Except.error e => Except.error e
      | Except.ok vs => Except.ok (v :: vs)

/-- The image loop of `group_by_similarity` (main.py lines 60-73): for each
URL with non-whitespace content, try to fetch and embed it; on success append
the embedding to `image_embeddings` and the URL to `valid_image_urls` in
lockstep, on any exception `pass`. -/
def embedImages (env : ClipEnv) : List String → List (List ℚ) × List String
  | [] => ([], [])
  | url :: rest =>
    if hasContent url then
      match env.imageEmbed url with
      | Except.ok v =>
        let p := embedImages env rest
        (v :: p.1, url :: p.2)
      | Except.error _ => embedImages env rest
    else embedImages env rest

/-- The filtered list `valid_texts = [text for text in texts if text.strip()]`. -/
def validTexts (texts : List String) : List String :=
  texts.filter (fun text => hasContent text)

/-- The non-whitespace image URLs the loops attempt to process. -/
def validUrls (images : List String) : List String :=
  images.filter (fun url => hasContent url)

/-- The cosine-distance threshold fixed at line 44 of main.py. -/
def threshold : ℚ := 3 / 10

/-- POST `/group-threshold` (main.py lines 40-85).  Returns
`Except.error` when the unguarded batched text-embedding call raises (the
endpoint has no failure boundary, so the exception propagates). -/
def group_by_similarity (env : ClipEnv) (texts image_urls : List String) :
    Except String (List Group) :=
  if texts.all (fun text => !hasContent text) then Except.ok []
  else
    match embedTexts env (validTexts texts) with
    | Except.error e => Except.error e
    | Except.ok text_embeddings =>
      let p := embedImages env image_urls
      Except.ok ((List.range text_embeddings.length).map (fun i =>
        { text := (validTexts texts).getD i ""
          «matches» := (List.range p.1.length).filterMap (fun j =>
            if 1 - threshold < dot (text_embeddings.getD i []) (p.1.getD j [])
            then some (p.2.getD j "") else none) }))

/-- The 14 fixed art style categories (main.py lines 95-99). -/
def art_styles : List String :=
  ["impressionism", "abstract", "realistic", "minimalist",
   "surreal", "vintage", "modern", "classical", "pop art",
   "cubism", "expressionism", "renaissance", "baroque", "contemporary"]

/-- Body of the per-image `try` block of `classify_art_style`: fetch and
embed the image, embed the 14 style labels, take the argmax similarity. -/
def style_item_result (env : ClipEnv) (image_url : String) : Except String StyleResult :=
  match env.imageEmbed image_url with
  | Except.error e => Except.error e
  | Except.ok image_norm =>
    match embedTexts env art_styles with
    | Except.error e => Except.error e
    | Except.ok style_norm =>
      let similarities := cosine_similarities image_norm style_norm
      let top_style_idx := argmaxIdx similarities
      Except.ok { image := image_url
                  style := art_styles.getD top_style_idx ""
                  confidence := similarities.getD top_style_idx 0
                  error := none }

/-- One record per attempted URL: the success dict, or on any exception in
the `try` block the failure dict with the sentinel style. -/
def style_item (env : ClipEnv) (image_url : String) : StyleResult :=
  match style_item_result env image_url with
  | Except.ok r => r
  | Except.error e =>
    { image := image_url
      style := "unknown"
      confidence := 0
      error := some ("Failed to process image: " ++ e) }

/-- POST `/classify-art-style` (main.py lines 88-145): the loop over
`request.images`, skipping whitespace-only URLs.  The outer `try` that maps
an uncaught exception to HTTP 500 is dead in this model: every fallible
operation of the body sits inside the per-image `try`. -/
def classify_art_style (env : ClipEnv) : List String → List StyleResult
  | [] => []
  | image_url :: rest =>
    if !hasContent image_url then classify_art_style env rest
    else style_item env image_url :: classify_art_style env rest

/-- The 8 fixed mood categories (main.py line 154). -/
def mood_categories : List String :=
  ["happy", "sad", "energetic", "calm", "mysterious", "romantic", "aggressive", "peaceful"]

/-- The 10 fixed theme categories (main.py line 155). -/
def theme_categories : List String :=
  ["nature", "urban", "technology", "art", "food", "travel", "fashion", "sports",
   "business", "education"]

/-- Per-text body of `classify_mood_theme` (lines 160-191): embed the text,
embed both category sets, pick argmax mood and argmax theme independently.
There is no `try` here, so a model failure propagates. -/
def text_item (env : ClipEnv) (text : String) : Except String MoodResult :=
  match env.textEmbed text with
  | Except.error e => Except.error e
  | Except.ok text_norm =>
    match embedTexts env mood_categories with
    | Except.error e => Except.error e
    | Except.ok mood_norm =>
      match embedTexts env theme_categories with
      | Except.error e => Except.error e
      | Except.ok theme_norm =>
        let mood_similarities := cosine_similarities text_norm mood_norm
        let theme_similarities := cosine_similarities text_norm theme_norm
        let top_mood_idx := argmaxIdx mood_similarities
        let top_theme_idx := argmaxIdx theme_similarities
        Except.ok { type := "text"
                    content := text
                    mood := some (mood_categories.getD top_mood_idx "")
                    theme := some (theme_categories.getD top_theme_idx "")
                    mood_confidence := some (mood_similarities.getD top_mood_idx 0)
                    theme_confidence := some (theme_similarities.getD top_theme_idx 0)
                    error := none }

/-- Body of the per-image `try` block of `classify_mood_theme` (lines
196-225): same as the text branch with the image embedding in place of the
text embedding. -/
def image_item_result (env : ClipEnv) (url : String) : Except String MoodResult :=
  match env.imageEmbed url with
  | Except.error e => Except.error e
  | Except.ok image_norm =>
    match embedTexts env mood_categories with
    | Except.error e => Except.error e
    | Except.ok mood_norm =>
      match embedTexts env theme_categories with
      | Except.error e => Except.error e
      | Except.ok theme_norm =>
        let mood_similarities := cosine_similarities image_norm mood_norm
        let theme_similarities := cosine_similarities image_norm theme_norm
        let top_mood_idx := argmaxIdx mood_similarities
        let top_theme_idx := argmaxIdx theme_similarities
        Except.ok { type := "image"
                    content := url
                    mood := some (mood_categories.getD top_mood_idx "")
                    theme := some (theme_categories.getD top_theme_idx "")
                    mood_confidence := some (mood_similarities.getD top_mood_idx 0)
                    theme_confidence := some (theme_similarities.getD top_theme_idx 0)
                    error := none }

/-- One record per attempted image URL: the success dict, or on any
exception the failure dict carrying only `type`, `content` and `error`. -/
def image_item (env : ClipEnv) (url : String) : MoodResult :=
  match image_item_result env url with
  | Except.ok r => r
  | Except.error e =>
    { type := "image"
      content := url
      mood := none
      theme := none
      mood_confidence := none
      theme_confidence := none
      error := some ("Failed to process image: " ++ e) }

/-- The texts loop of `classify_mood_theme` (lines 160-191): one success
record per non-whitespace text, with no per-item failure boundary. -/
def process_texts (env : ClipEnv) : List String → Except String (List MoodResult)
  | [] => Except.ok []
  | text :: rest =>
    if hasContent text then
      match text_item env text with
      | Except.error e => Except.error e
      | Except.ok r =>
        match process_texts env rest with
        | Except.error e => Except.error e
        | Except.ok rs => Except.ok (r :: rs)
    else process_texts env rest

/-- The images loop of `classify_mood_theme` (lines 194-231): one record per
non-whitespace URL, failures caught per item. -/
def process_images (env : ClipEnv) : List String → List MoodResult
  | [] => []
  | url :: rest =>
    if hasContent url then image_item env url :: process_images env rest
    else process_images env rest

/-- POST `/classify-mood-theme` (main.py lines 148-233): the text records
followed by the image records.  The endpoint has no top-level `try`, so a
failure in the texts loop propagates as an unhandled server error. -/
def classify_mood_theme (env : ClipEnv) (texts image_urls : List String) :
    Except String (List MoodResult) :=
  match process_texts env texts with
  | Except.error e => Except.error e
  | Except.ok tr => Except.ok (tr ++ process_images env image_urls)

/-- A concrete environment used to instantiate theorems: `"a red apple"` and
`"http://apple.jpg"` embed to the same unit vector, `"http://bad"` fails to
fetch, `"boomtext"` makes the text model raise, everything else embeds to an
orthogonal unit vector. -/
def demoEnv : ClipEnv where
  textEmbed := fun t =>
    if t = "boomtext" then Except.error "tboom"
    else if t = "a red apple" then Except.ok [1, 0]
    else Except.ok [0, 1]
  imageEmbed := fun u =>
    if u = "http://bad" then Except.error "iboom"
    else if u = "http://apple.jpg" then Except.ok [1, 0]
    else Except.ok [0, 1]

/-- The art-style success record the demo environment produces for the
apple image: every label scores 0, so the argmax ties break to the first
label. -/
def demoStyleRec : StyleResult :=
  { image := "http://apple.jpg", style := "impressionism", confidence := 0, error := none }

/-- The mood/theme success record the demo environment produces for the text
`"a red apple"`: every category scores 0, so both argmaxes tie-break to the
first category. -/
def demoTextRec : MoodResult :=
  { type := "text"
    content := "a red apple"
    mood := some "happy"
    theme := some "nature"
    mood_confidence := some 0
    theme_confidence := some 0
    error := none }

/-- The mood/theme failure record the demo environment produces for the
failing URL. -/
def demoImageErrRec : MoodResult :=
  { type := "image"
    content := "http://bad"
    mood := none
    theme := none
    mood_confidence := none
    theme_confidence := none
    error := some ("Failed to process image: " ++ "iboom") }

/-- Invariant of the `torch.argmax` scan: either no later score beats the
current best and the best index is returned, or the result is the absolute
position of the first maximum among the remaining scores. -/
theorem argmaxAux_spec (xs : List ℚ) : ∀ (i bi : Nat) (b : ℚ),
    (argmaxAux i bi b xs = bi ∧ ∀ k, k < xs.length → xs.getD k 0 ≤ b)
    ∨ (∃ k, k < xs.length ∧ argmaxAux i bi b xs = i + k ∧ b < xs.getD k 0
        ∧ (∀ m, m < xs.length → xs.getD m 0 ≤ xs.getD k 0)
        ∧ (∀ m, m < k → xs.getD m 0 < xs.getD k 0)) := by
  induction xs with
  | nil =>
    intro i bi b
    left
    exact ⟨rfl, by intro k hk; simp at hk⟩
  | cons x xs ih =>
    intro i bi b
    by_cases h : b < x
    · rcases ih (i + 1) i x with ⟨heq, hall⟩ | ⟨k, hk, heq, hlt, hmax, hfirst⟩
      · right
        refine ⟨0, by simp, ?_, by simpa using h, ?_, ?_⟩
        · simpa [argmaxAux, h] using heq
        · intro m hm
          cases m with
          | zero => simp
          | succ n =>
            simp only [List.getD_cons_succ, List.getD_cons_zero]
            exact hall n (by simpa using hm)
        · intro m hm; omega
      · right
        refine ⟨k + 1, by simpa using hk, ?_, ?_, ?_, ?_⟩
        · simp only [argmaxAux, if_pos h]
          rw [heq]
          omega
        · simp only [List.getD_cons_succ]
          exact lt_trans h hlt
        · intro m hm
          cases m with
          | zero =>
            simp only [List.getD_cons_zero, List.getD_cons_succ]
            exact le_of_lt hlt
          | succ n =>
            simp only [List.getD_cons_succ]
            exact hmax n (by simpa using hm)
        · intro m hm
          cases m with
          | zero =>
            simp only [List.getD_cons_zero, List.getD_cons_succ]
            exact hlt
          | succ n =>
            simp only [List.getD_cons_succ]
            exact hfirst n (by omega)
    · rcases ih (i + 1) bi b with ⟨heq, hall⟩ | ⟨k, hk, heq, hlt, hmax, hfirst⟩
      · left
        refine ⟨by simpa [argmaxAux, h] using heq, ?_⟩
        intro k hk
        cases k with
        | zero => simpa using not_lt.mp h
        | succ n =>
          simp only [List.getD_cons_succ]
          exact hall n (by simpa using hk)
      · right
        refine ⟨k + 1, by simpa using hk, ?_, ?_, ?_, ?_⟩
        · simp only [argmaxAux, if_neg h]
          rw [heq]
          omega
        · simp only [List.getD_cons_succ]
          exact hlt
        · intro m hm
          cases m with
          | zero =>
            simp only [List.getD_cons_zero, List.getD_cons_succ]
            exact le_trans (not_lt.mp h) (le_of_lt hlt)
          | succ n =>
            simp only [List.getD_cons_succ]
            exact hmax n (by simpa using hm)
        · intro m hm
          cases m with
          | zero =>
            simp only [List.getD_cons_zero, List.getD_cons_succ]
            exact lt_of_le_of_lt (not_lt.mp h) hlt
          | succ n =>
            simp only [List.getD_cons_succ]
            exact hfirst n (by omega)

/-- `torch.argmax` on a nonempty score list returns an in-bounds index whose
score is maximal, and every earlier index has a strictly smaller score (ties
are broken by the first occurrence). -/
theorem argmaxIdx_spec (l : List ℚ) (hl : l ≠ []) :
    argmaxIdx l < l.length
    ∧ (∀ k, k < l.length → l.getD k 0 ≤ l.getD (argmaxIdx l) 0)
    ∧ (∀ k, k < argmaxIdx l → l.getD k 0 < l.getD (argmaxIdx l) 0) := by
  cases l with
  | nil => exact absurd rfl hl
  | cons x xs =>
    have hrw : argmaxIdx (x :: xs) = argmaxAux 1 0 x xs := rfl
    rw [hrw]
    rcases argmaxAux_spec xs 1 0 x with ⟨heq, hall⟩ | ⟨k, hk, heq, hlt, hmax, hfirst⟩
    · rw [heq]
      refine ⟨by simp, ?_, by intro k hk; exact absurd hk (by omega)⟩
      intro k hklt
      cases k with
      | zero => simp
      | succ n =>
        simp only [List.getD_cons_succ, List.getD_cons_zero]
        exact hall n (by simpa using hklt)
    · have h1k : 1 + k = k + 1 := by omega
      rw [heq, h1k]
      refine ⟨by simp only [List.length_cons]; omega, ?_, ?_⟩
      · intro m hm
        cases m with
        | zero =>
          simp only [List.getD_cons_zero, List.getD_cons_succ]
          exact le_of_lt hlt
        | succ n =>
          simp only [List.getD_cons_succ]
          exact hmax n (by simpa using hm)
      · intro m hm
        cases m with
        | zero =>
          simp only [List.getD_cons_zero, List.getD_cons_succ]
          exact hlt
        | succ n =>
          simp only [List.getD_cons_succ]
          exact hfirst n (by omega)

/-- The batched text-embedding call returns one row per input, and the row at
each index is the embedding of the string at that index. -/
theorem embedTexts_ok (env : ClipEnv) (ts : List String) :
    ∀ vs, embedTexts env ts = Except.ok vs →
    vs.length = ts.length
    ∧ ∀ i, i < ts.length → env.textEmbed (ts.getD i "") = Except.ok (vs.getD i []) := by
  induction ts with
  | nil =>
    intro vs h
    simp only [embedTexts, Except.ok.injEq] at h
    subst h
    exact ⟨rfl, by intro i hi; simp at hi⟩
  | cons t ts ih =>
    intro vs h
    simp only [embedTexts] at h
    cases ht : env.textEmbed t with
    | error e => rw [ht] at h; simp at h
    | ok v =>
      rw [ht] at h
      cases hr : embedTexts env ts with
      | error e => rw [hr] at h; simp at h
      | ok vs' =>
        rw [hr] at h
        simp only [Except.ok.injEq] at h
        subst h
        obtain ⟨hl, hi⟩ := ih vs' hr
        refine ⟨by simp [hl], ?_⟩
        intro i hilt
        cases i with
        | zero => simpa using ht
        | succ n =>
          simp only [List.getD_cons_succ]
          exact hi n (by simpa using hilt)

/-- Lockstep invariant of the image loop: the embedding list and the URL list
have the same length, and the embedding at each index is exactly the
embedding the provider returned for the URL at the same index. -/
theorem embedImages_align (env : ClipEnv) (urls : List String) :
    (embedImages env urls).1.length = (embedImages env urls).2.length
    ∧ ∀ j, j < (embedImages env urls).1.length →
        env.imageEmbed ((embedImages env urls).2.getD j "")
          = Except.ok ((embedImages env urls).1.getD j []) := by
  induction urls with
  | nil => exact ⟨rfl, by intro j hj; simp [embedImages] at hj⟩
  | cons url rest ih =>
    cases hw : hasContent url with
    | false =>
      rw [show embedImages env (url :: rest) = embedImages env rest by
        simp [embedImages, hw]]
      exact ih
    | true =>
      cases hv : env.imageEmbed url with
      | error e =>
        rw [show embedImages env (url :: rest) = embedImages env rest by
          simp [embedImages, hw, hv]]
        exact ih
      | ok v =>
        obtain ⟨hl, hj⟩ := ih
        rw [show embedImages env (url :: rest)
            = (v :: (embedImages env rest).1, url :: (embedImages env rest).2) by
          simp [embedImages, hw, hv]]
        refine ⟨by simp [hl], ?_⟩
        intro j hjlt
        cases j with
        | zero => simpa using hv
        | succ n =>
          simp only [List.getD_cons_succ]
          exact hj n (by simpa using hjlt)

/-- Every URL the image loop keeps was a non-whitespace input URL whose fetch
and embedding succeeded. -/
theorem embedImages_mem (env : ClipEnv) (urls : List String) (url : String)
    (h : url ∈ (embedImages env urls).2) :
    url ∈ urls ∧ hasContent url = true ∧ ∃ v, env.imageEmbed url = Except.ok v := by
  induction urls with
  | nil => simp [embedImages] at h
  | cons u rest ih =>
    cases hw : hasContent u with
    | false =>
      rw [show embedImages env (u :: rest) = embedImages env rest by
        simp [embedImages, hw]] at h
      obtain ⟨h1, h2, h3⟩ := ih h
      exact ⟨List.mem_cons_of_mem u h1, h2, h3⟩
    | true =>
      cases hv : env.imageEmbed u with
      | error e =>
        rw [show embedImages env (u :: rest) = embedImages env rest by
          simp [embedImages, hw, hv]] at h
        obtain ⟨h1, h2, h3⟩ := ih h
        exact ⟨List.mem_cons_of_mem u h1, h2, h3⟩
      | ok v =>
        rw [show embedImages env (u :: rest)
            = (v :: (embedImages env rest).1, u :: (embedImages env rest).2) by
          simp [embedImages, hw, hv]] at h
        rcases List.mem_cons.mp h with heq | hmem
        · refine ⟨by rw [heq]; exact List.mem_cons_self u rest, ?_, v, by rw [heq]; exact hv⟩
          rw [heq]
          exact hw
        · obtain ⟨h1, h2, h3⟩ := ih hmem
          exact ⟨List.mem_cons_of_mem u h1, h2, h3⟩

/-- When no input URL embeds successfully (in particular when the list is
empty), the image loop keeps nothing. -/
theorem embedImages_all_fail (env : ClipEnv) (urls : List String)
    (h : ∀ url, url ∈ urls → ∀ v, env.imageEmbed url ≠ Except.ok v) :
    embedImages env urls = ([], []) := by
  induction urls with
  | nil => rfl
  | cons u rest ih =>
    have hrest : embedImages env rest = ([], []) :=
      ih (fun url hu v => h url (List.mem_cons_of_mem u hu) v)
    cases hw : hasContent u with
    | false => simpa [embedImages, hw] using hrest
    | true =>
      cases hv : env.imageEmbed u with
      | error e => simpa [embedImages, hw, hv] using hrest
      | ok v => exact absurd hv (h u (List.mem_cons_self u rest) v)

/-- A list built by walking indices `0, ..., us.length - 1` in order and
keeping `us[j]` when a test on `j` passes is an order-preserving sublist of
`us`. -/
theorem filterMap_range_sublist {α : Type} (d : α) (us : List α) (f : Nat → Option α)
    (hf : ∀ j a, f j = some a → a = us.getD j d) :
    List.Sublist ((List.range us.length).filterMap f) us := by
  induction us generalizing f with
  | nil => simp
  | cons u us ih =>
    rw [List.length_cons, List.range_succ_eq_map]
    cases hf0 : f 0 with
    | none =>
      rw [List.filterMap_cons_none hf0, List.filterMap_map]
      exact List.Sublist.cons u
        (ih (fun j => f (j + 1)) (fun j b h => by simpa using hf (j + 1) b h))
    | some a =>
      rw [List.filterMap_cons_some hf0, List.filterMap_map]
      have ha : a = u := by simpa using hf 0 a hf0
      rw [ha]
      exact List.Sublist.cons₂ u
        (ih (fun j => f (j + 1)) (fun j b h => by simpa using hf (j + 1) b h))

/-- The art-style loop distributes over list append: records of later URLs
are unaffected by earlier ones. -/
theorem classify_art_style_append (env : ClipEnv) (as bs : List String) :
    classify_art_style env (as ++ bs)
      = classify_art_style env as ++ classify_art_style env bs := by
  induction as with
  | nil => simp [classify_art_style]
  | cons a as ih =>
    cases hw : hasContent a with
    | true => simp [classify_art_style, hw, ih]
    | false => simp [classify_art_style, hw, ih]

/-- Every art-style record comes from one attempted (non-whitespace) input
URL. -/
theorem classify_art_style_mem (env : ClipEnv) (urls : List String) (r : StyleResult)
    (h : r ∈ classify_art_style env urls) :
    ∃ url, url ∈ urls ∧ hasContent url = true ∧ r = style_item env url := by
  induction urls with
  | nil => simp [classify_art_style] at h
  | cons u rest ih =>
    cases hw : hasContent u with
    | false =>
      rw [show classify_art_style env (u :: rest) = classify_art_style env rest by
        simp [classify_art_style, hw]] at h
      obtain ⟨url, h1, h2, h3⟩ := ih h
      exact ⟨url, List.mem_cons_of_mem u h1, h2, h3⟩
    | true =>
      rw [show classify_art_style env (u :: rest)
          = style_item env u :: classify_art_style env rest by
        simp [classify_art_style, hw]] at h
      rcases List.mem_cons.mp h with heq | hmem
      · exact ⟨u, List.mem_cons_self u rest, hw, heq⟩
      · obtain ⟨url, h1, h2, h3⟩ := ih hmem
        exact ⟨url, List.mem_cons_of_mem u h1, h2, h3⟩

/-- Shape of the success record of the art-style per-image body: it is built
from the image embedding and the 14 label embeddings by argmax. -/
theorem style_item_result_ok (env : ClipEnv) (url : String) (r : StyleResult)
    (h : style_item_result env url = Except.ok r) :
    ∃ v sn, env.imageEmbed url = Except.ok v
      ∧ embedTexts env art_styles = Except.ok sn
      ∧ r = { image := url
              style := art_styles.getD (argmaxIdx (cosine_similarities v sn)) ""
              confidence := (cosine_similarities v sn).getD
                  (argmaxIdx (cosine_similarities v sn)) 0
              error := none } := by
  unfold style_item_result at h
  cases hv : env.imageEmbed url with
  | error e => rw [hv] at h; simp at h
  | ok v =>
    rw [hv] at h
    cases hs : embedTexts env art_styles with
    | error e => rw [hs] at h; simp at h
    | ok sn =>
      rw [hs] at h
      simp only [Except.ok.injEq] at h
      exact ⟨v, sn, rfl, rfl, h.symm⟩

/-- Each per-image art-style record is either the success record of the
`try` body or the sentinel failure record carrying the exception message. -/
theorem style_item_cases (env : ClipEnv) (url : String) :
    (∃ r, style_item_result env url = Except.ok r ∧ style_item env url = r)
    ∨ (∃ e, style_item_result env url = Except.error e
        ∧ style_item env url = { image := url
                                 style := "unknown"
                                 confidence := 0
                                 error := some ("Failed to process image: " ++ e) }) := by
  unfold style_item
  cases h : style_item_result env url with
  | error e => exact Or.inr ⟨e, rfl, rfl⟩
  | ok r => exact Or.inl ⟨r, rfl, rfl⟩

/-- A string append starting with the fixed failure text is never empty. -/
theorem failure_message_ne_empty (e : String) :
    ("Failed to process image: " ++ e) ≠ "" := by
  intro h
  have hlen := congrArg String.length h
  rw [String.length_append] at hlen
  have h25 : ("Failed to process image: ").length = 25 := rfl
  have h0 : ("" : String).length = 0 := rfl
  rw [h25, h0] at hlen
  omega

/-- Shape of the success record of the per-text body of `/classify-mood-theme`:
mood and theme are independent argmaxes over the two category similarity
vectors computed from the same text embedding. -/
theorem text_item_ok (env : ClipEnv) (t : String) (r : MoodResult)
    (h : text_item env t = Except.ok r) :
    ∃ v mn tn, env.textEmbed t = Except.ok v
      ∧ embedTexts env mood_categories = Except.ok mn
      ∧ embedTexts env theme_categories = Except.ok tn
      ∧ r = { type := "text"
              content := t
              mood := some (mood_categories.getD
                  (argmaxIdx (cosine_similarities v mn)) "")
              theme := some (theme_categories.getD
                  (argmaxIdx (cosine_similarities v tn)) "")
              mood_confidence := some ((cosine_similarities v mn).getD
                  (argmaxIdx (cosine_similarities v mn)) 0)
              theme_confidence := some ((cosine_similarities v tn).getD
                  (argmaxIdx (cosine_similarities v tn)) 0)
              error := none } := by
  unfold text_item at h
  cases hv : env.textEmbed t with
  | error e => rw [hv] at h; simp at h
  | ok v =>
    rw [hv] at h
    cases hm : embedTexts env mood_categories with
    | error e => rw [hm] at h; simp at h
    | ok mn =>
      rw [hm] at h
      cases htn : embedTexts env theme_categories with
      | error e => rw [htn] at h; simp at h
      | ok tn =>
        rw [htn] at h
        simp only [Except.ok.injEq] at h
        exact ⟨v, mn, tn, rfl, rfl, rfl, h.symm⟩

/-- Shape of the success record of the per-image body of
`/classify-mood-theme`. -/
theorem image_item_result_ok (env : ClipEnv) (url : String) (r : MoodResult)
    (h : image_item_result env url = Except.ok r) :
    ∃ v mn tn, env.imageEmbed url = Except.ok v
      ∧ embedTexts env mood_categories = Except.ok mn
      ∧ embedTexts env theme_categories = Except.ok tn
      ∧ r = { type := "image"
              content := url
              mood := some (mood_categories.getD
                  (argmaxIdx (cosine_similarities v mn)) "")
              theme := some (theme_categories.getD
                  (argmaxIdx (cosine_similarities v tn)) "")
              mood_confidence := some ((cosine_similarities v mn).getD
                  (argmaxIdx (cosine_similarities v mn)) 0)
              theme_confidence := some ((cosine_similarities v tn).getD
                  (argmaxIdx (cosine_similarities v tn)) 0)
              error := none } := by
  unfold image_item_result at h
  cases hv : env.imageEmbed url with
  | error e => rw [hv] at h; simp at h
  | ok v =>
    rw [hv] at h
    cases hm : embedTexts env mood_categories with
    | error e => rw [hm] at h; simp at h
    | ok mn =>
      rw [hm] at h
      cases htn : embedTexts env theme_categories with
      | error e => rw [htn] at h; simp at h
      | ok tn =>
        rw [htn] at h
        simp only [Except.ok.injEq] at h
        exact ⟨v, mn, tn, rfl, rfl, rfl, h.symm⟩

/-- Each per-image mood/theme record is either the success record of the
`try` body or the three-field failure record. -/
theorem image_item_cases (env : ClipEnv) (url : String) :
    (∃ r, image_item_result env url = Except.ok r ∧ image_item env url = r)
    ∨ (∃ e, image_item_result env url = Except.error e
        ∧ image_item env url = { type := "image"
                                 content := url
                                 mood := none
                                 theme := none
                                 mood_confidence := none
                                 theme_confidence := none
                                 error := some ("Failed to process image: " ++ e) }) := by
  unfold image_item
  cases h : image_item_result env url with
  | error e => exact Or.inr ⟨e, rfl, rfl⟩
  | ok r => exact Or.inl ⟨r, rfl, rfl⟩

/-- Every per-image mood/theme record is tagged `type = "image"` and carries
the URL as `content`, on success and on failure alike. -/
theorem image_item_fields (env : ClipEnv) (url : String) :
    (image_item env url).type = "image" ∧ (image_item env url).content = url := by
  rcases image_item_cases env url with ⟨r, hres, heq⟩ | ⟨e, hres, heq⟩
  · obtain ⟨v, mn, tn, _, _, _, hr⟩ := image_item_result_ok env url r hres
    rw [heq, hr]
    exact ⟨rfl, rfl⟩
  · rw [heq]
    exact ⟨rfl, rfl⟩

/-- The texts loop succeeds with one record per non-whitespace text, in input
order, carrying the text itself as `content`; every record is built by the
per-text body on a member of the input list. -/
theorem process_texts_ok (env : ClipEnv) (ts : List String) :
    ∀ tr, process_texts env ts = Except.ok tr →
      tr.map MoodResult.content = validTexts ts
      ∧ ∀ r, r ∈ tr → ∃ t, t ∈ ts ∧ hasContent t = true ∧ text_item env t = Except.ok r := by
  induction ts with
  | nil =>
    intro tr h
    simp only [process_texts, Except.ok.injEq] at h
    subst h
    exact ⟨rfl, by intro r hr; simp at hr⟩
  | cons t ts ih =>
    intro tr h
    simp only [process_texts] at h
    cases hw : hasContent t with
    | false =>
      rw [if_neg (by simp [hw])] at h
      obtain ⟨h1, h2⟩ := ih tr h
      refine ⟨?_, ?_⟩
      · rw [h1]
        simp [validTexts, List.filter_cons, hw]
      · intro r hr
        obtain ⟨s, hs1, hs2, hs3⟩ := h2 r hr
        exact ⟨s, List.mem_cons_of_mem t hs1, hs2, hs3⟩
    | true =>
      rw [if_pos (by simp [hw])] at h
      cases hti : text_item env t with
      | error e => rw [hti] at h; simp at h
      | ok r0 =>
        rw [hti] at h
        cases hrest : process_texts env ts with
        | error e => rw [hrest] at h; simp at h
        | ok rs =>
          rw [hrest] at h
          simp only [Except.ok.injEq] at h
          subst h
          obtain ⟨h1, h2⟩ := ih rs hrest
          refine ⟨?_, ?_⟩
          · obtain ⟨v, mn, tn, _, _, _, hr0⟩ := text_item_ok env t r0 hti
            simp only [List.map_cons, h1, validTexts, List.filter_cons]
            rw [hr0]
            simp [hw, validTexts]
          · intro r hr
            rcases List.mem_cons.mp hr with heq | hmem
            · exact ⟨t, List.mem_cons_self t ts, hw, by rw [← heq] at hti; exact hti⟩
            · obtain ⟨s, hs1, hs2, hs3⟩ := h2 r hmem
              exact ⟨s, List.mem_cons_of_mem t hs1, hs2, hs3⟩

/-- When the model raises on any attempted (non-whitespace) text, the texts
loop of `/classify-mood-theme` fails as a whole: there is no per-text
failure boundary. -/
theorem process_texts_fail (env : ClipEnv) (ts : List String) (t : String) (e : String)
    (hmem : t ∈ ts) (hws : hasContent t = true) (hf : env.textEmbed t = Except.error e) :
    ∃ msg, process_texts env ts = Except.error msg := by
  induction ts with
  | nil => simp at hmem
  | cons s ts ih =>
    rcases List.mem_cons.mp hmem with heq | hmem'
    · subst heq
      refine ⟨e, ?_⟩
      simp only [process_texts]
      rw [if_pos (by simp [hws])]
      rw [show text_item env t = Except.error e by unfold text_item; rw [hf]]
    · cases hw : hasContent s with
      | false =>
        obtain ⟨msg, hmsg⟩ := ih hmem'
        refine ⟨msg, ?_⟩
        simp only [process_texts]
        rw [if_neg (by simp [hw])]
        exact hmsg
      | true =>
        cases hti : text_item env s with
        | error e2 =>
          refine ⟨e2, ?_⟩
          simp only [process_texts]
          rw [if_pos (by simp [hw]), hti]
        | ok r0 =>
          obtain ⟨msg, hmsg⟩ := ih hmem'
          refine ⟨msg, ?_⟩
          simp only [process_texts]
          rw [if_pos (by simp [hw]), hti, hmsg]

/-- The images loop emits one record per non-whitespace URL, in input order,
carrying the URL as `content`; every record is the per-image record of a
member of the input list. -/
theorem process_images_ok (env : ClipEnv) (urls : List String) :
    (process_images env urls).map MoodResult.content = validUrls urls
    ∧ ∀ r, r ∈ process_images env urls →
        ∃ url, url ∈ urls ∧ hasContent url = true ∧ r = image_item env url := by
  induction urls with
  | nil => exact ⟨rfl, by intro r hr; simp [process_images] at hr⟩
  | cons u rest ih =>
    obtain ⟨h1, h2⟩ := ih
    cases hw : hasContent u with
    | false =>
      rw [show process_images env (u :: rest) = process_images env rest by
        simp [process_images, hw]]
      refine ⟨?_, ?_⟩
      · rw [h1]
        simp [validUrls, List.filter_cons, hw]
      · intro r hr
        obtain ⟨url, hu1, hu2, hu3⟩ := h2 r hr
        exact ⟨url, List.mem_cons_of_mem u hu1, hu2, hu3⟩
    | true =>
      rw [show process_images env (u :: rest)
          = image_item env u :: process_images env rest by
        simp [process_images, hw]]
      refine ⟨?_, ?_⟩
      · simp only [List.map_cons, h1, validUrls, List.filter_cons]
        rw [(image_item_fields env u).2]
        simp [hw, validUrls]
      · intro r hr
        rcases List.mem_cons.mp hr with heq | hmem
        · exact ⟨u, List.mem_cons_self u rest, hw, heq⟩
        · obtain ⟨url, hu1, hu2, hu3⟩ := h2 r hmem
          exact ⟨url, List.mem_cons_of_mem u hu1, hu2, hu3⟩

/-- The images loop distributes over append: one URL's record does not
disturb the records of the others. -/
theorem process_images_append (env : ClipEnv) (as bs : List String) :
    process_images env (as ++ bs) = process_images env as ++ process_images env bs := by
  induction as with
  | nil => simp [process_images]
  | cons a as ih =>
    cases hw : hasContent a with
    | true => simp [process_images, hw, ih]
    | false => simp [process_images, hw, ih]

/-- Reading an in-range index of a list built by mapping over `List.range`
yields the function applied to that index. -/
theorem getD_range_map {α : Type} (n : Nat) (f : Nat → α) (i : Nat) (hi : i < n) (d : α) :
    ((List.range n).map f).getD i d = f i := by
  rw [List.getD_eq_getElem _ _ (by simpa using hi)]
  simp

/-- Characterization of a successful `/group-threshold` run that passed the
emptiness short-circuit: the result is one group per valid text, whose
matches are the successfully embedded URLs scoring above `1 - threshold`. -/
theorem group_by_similarity_ok (env : ClipEnv) (texts images : List String)
    (groups : List Group)
    (hne : texts.all (fun text => !hasContent text) = false)
    (hok : group_by_similarity env texts images = Except.ok groups) :
    ∃ tembs, embedTexts env (validTexts texts) = Except.ok tembs
      ∧ groups = (List.range tembs.length).map (fun i =>
          { text := (validTexts texts).getD i ""
            «matches» := (List.range (embedImages env images).1.length).filterMap (fun j =>
              if 1 - threshold < dot (tembs.getD i []) ((embedImages env images).1.getD j [])
              then some ((embedImages env images).2.getD j "") else none) }) := by
  unfold group_by_similarity at hok
  rw [if_neg (by simp [hne])] at hok
  cases hte : embedTexts env (validTexts texts) with
  | error e => rw [hte] at hok; simp at hok
  | ok tembs =>
    rw [hte] at hok
    simp only [Except.ok.injEq] at hok
    exact ⟨tembs, rfl, hok.symm⟩

/-- C2: when no text in the request has non-whitespace content, the
group-threshold endpoint returns exactly the empty list, for every
environment and every images list — in particular the result does not depend
on the images or on any embedding or fetch outcome, reflecting that the
short-circuit fires before any model or network call. -/
theorem C2_short_circuit (env : ClipEnv) (texts images : List String)
    (h : texts.all (fun text => !hasContent text) = true) :
    group_by_similarity env texts images = Except.ok [] := by
  unfold group_by_similarity
  rw [if_pos h]

/-- Witness for C2 at a concrete whitespace-only request. -/
theorem C2_short_circuit_witness :
    group_by_similarity demoEnv ["", "   "] ["http://apple.jpg"] = Except.ok [] :=
  C2_short_circuit demoEnv ["", "   "] ["http://apple.jpg"] (by decide)

/-- C10: the three parallel sequences of the comparison loop stay aligned:
the text-embedding matrix has one row per filtered non-empty text and row
`i` is the embedding of `valid_texts[i]`; the image-embedding list and the
kept-URL list have equal length and entry `j` of the former is exactly the
embedding the provider returned for `valid_image_urls[j]` — so every index
access in the loop is in bounds and names the item whose embedding produced
the score. -/
theorem C10_lockstep_alignment (env : ClipEnv) (texts images : List String)
    (tembs : List (List ℚ))
    (h : embedTexts env (validTexts texts) = Except.ok tembs) :
    tembs.length = (validTexts texts).length
    ∧ (∀ i, i < tembs.length →
        env.textEmbed ((validTexts texts).getD i "") = Except.ok (tembs.getD i []))
    ∧ (embedImages env images).1.length = (embedImages env images).2.length
    ∧ (∀ j, j < (embedImages env images).1.length →
        env.imageEmbed ((embedImages env images).2.getD j "")
          = Except.ok ((embedImages env images).1.getD j [])) := by
  obtain ⟨hl, hi⟩ := embedTexts_ok env (validTexts texts) tembs h
  obtain ⟨hl2, hj⟩ := embedImages_align env images
  exact ⟨hl, fun i hilt => hi i (hl ▸ hilt), hl2, hj⟩

/-- Witness for C10 at a concrete one-text, one-image request. -/
theorem C10_lockstep_alignment_witness :
    ([[(1 : ℚ), 0]] : List (List ℚ)).length = (validTexts ["a red apple"]).length
    ∧ (∀ i, i < ([[(1 : ℚ), 0]] : List (List ℚ)).length →
        demoEnv.textEmbed ((validTexts ["a red apple"]).getD i "")
          = Except.ok (([[(1 : ℚ), 0]] : List (List ℚ)).getD i []))
    ∧ (embedImages demoEnv ["http://apple.jpg"]).1.length
        = (embedImages demoEnv ["http://apple.jpg"]).2.length
    ∧ (∀ j, j < (embedImages demoEnv ["http://apple.jpg"]).1.length →
        demoEnv.imageEmbed ((embedImages demoEnv ["http://apple.jpg"]).2.getD j "")
          = Except.ok ((embedImages demoEnv ["http://apple.jpg"]).1.getD j [])) :=
  C10_lockstep_alignment demoEnv ["a red apple"] ["http://apple.jpg"] [[1, 0]]
    (by simp +decide [embedTexts, validTexts, demoEnv, hasContent])

/-- C1: in a successful group-threshold response, a successfully embedded
image URL appears in the matches of text `i` exactly when the cosine
similarity of their unit-normalized embeddings strictly exceeds
`1 - threshold`, and that cutoff equals `7/10`: the fixed `threshold = 0.3`
is applied as `similarity > 1 - threshold`, not as `similarity > threshold`. -/
theorem C1_threshold_iff (env : ClipEnv) (texts images : List String)
    (groups : List Group)
    (hok : group_by_similarity env texts images = Except.ok groups)
    (i j : Nat) (hi : i < groups.length) (hj : j < (embedImages env images).2.length)
    (ti vj : List ℚ)
    (hti : env.textEmbed ((validTexts texts).getD i "") = Except.ok ti)
    (hvj : env.imageEmbed ((embedImages env images).2.getD j "") = Except.ok vj) :
    (1 - threshold : ℚ) = 7 / 10
    ∧ ((embedImages env images).2.getD j "" ∈ (groups.getD i ⟨"", []⟩).«matches»
        ↔ 7 / 10 < dot ti vj) := by
  have h710 : (1 - threshold : ℚ) = 7 / 10 := by norm_num [threshold]
  refine ⟨h710, ?_⟩
  cases hall : texts.all (fun text => !hasContent text) with
  | true =>
    have hnil : groups = [] := by
      unfold group_by_similarity at hok
      rw [if_pos hall] at hok
      simpa using hok.symm
    rw [hnil] at hi
    simp at hi
  | false =>
    obtain ⟨tembs, hte, hgr⟩ := group_by_similarity_ok env texts images groups hall hok
    obtain ⟨htlen, htcorr⟩ := embedTexts_ok env (validTexts texts) tembs hte
    obtain ⟨hilen, hicorr⟩ := embedImages_align env images
    have hglen : groups.length = tembs.length := by rw [hgr]; simp
    have hi' : i < tembs.length := hglen ▸ hi
    have hiv : i < (validTexts texts).length := htlen ▸ hi'
    have hti' : tembs.getD i [] = ti := by
      have h1 := htcorr i hiv
      rw [hti] at h1
      injection h1 with h1
      exact h1.symm
    have hjm : j < (embedImages env images).1.length := by omega
    rw [hgr, getD_range_map _ _ i hi']
    simp only [List.mem_filterMap, List.mem_range]
    constructor
    · rintro ⟨a, ham, hsome⟩
      by_cases hc : 1 - threshold
          < dot (tembs.getD i []) ((embedImages env images).1.getD a [])
      · rw [if_pos hc] at hsome
        injection hsome with hurl
        have hcorr_a := hicorr a ham
        rw [hurl, hvj] at hcorr_a
        injection hcorr_a with hva
        rw [← hti', hva, ← h710]
        exact hc
      · rw [if_neg hc] at hsome
        exact absurd hsome (by simp)
    · intro hlt
      refine ⟨j, hjm, ?_⟩
      have hcorr_j := hicorr j hjm
      rw [hvj] at hcorr_j
      injection hcorr_j with hvj'
      rw [if_pos (by rw [hti', ← hvj', h710]; exact hlt)]

/-- Witness for C1 at a matching text/image pair in the demo environment. -/
theorem C1_threshold_iff_witness :
    (1 - threshold : ℚ) = 7 / 10
    ∧ ((embedImages demoEnv ["http://apple.jpg"]).2.getD 0 ""
        ∈ (([{ text := "a red apple", «matches» := ["http://apple.jpg"] }] :
            List Group).getD 0 ⟨"", []⟩).«matches»
        ↔ 7 / 10 < dot [1, 0] [1, 0]) :=
  C1_threshold_iff demoEnv ["a red apple"] ["http://apple.jpg"]
    [{ text := "a red apple", «matches» := ["http://apple.jpg"] }]
    (by simp +decide [group_by_similarity, demoEnv, validTexts, embedTexts, embedImages,
          hasContent, threshold]
        norm_num [dot, List.range_succ, List.filterMap_cons, List.filterMap_nil])
    0 0 (by decide) (by decide) [1, 0] [1, 0]
    (by simp +decide [demoEnv, validTexts, hasContent])
    (by simp +decide [demoEnv, embedImages, hasContent])

/-- C4: a successful group-threshold response past the short-circuit has one
entry per non-empty text in input order (entry `i` carries `valid_texts[i]`),
each matches list an order-preserving sublist of the successfully embedded
URLs (which all come from the input and embedded successfully), and any URL
whose fetch or embedding fails appears in no matches list — the response
shape has no field in which such a failure could be reported. -/
theorem C4_output_shape (env : ClipEnv) (texts images : List String)
    (groups : List Group)
    (hne : texts.all (fun text => !hasContent text) = false)
    (hok : group_by_similarity env texts images = Except.ok groups) :
    groups.length = (validTexts texts).length
    ∧ (∀ i, i < groups.length →
        (groups.getD i ⟨"", []⟩).text = (validTexts texts).getD i "")
    ∧ (∀ i, i < groups.length →
        List.Sublist (groups.getD i ⟨"", []⟩).«matches» (embedImages env images).2)
    ∧ (∀ url, url ∈ (embedImages env images).2 →
        url ∈ images ∧ ∃ v, env.imageEmbed url = Except.ok v)
    ∧ (∀ i url e, i < groups.length → env.imageEmbed url = Except.error e →
        url ∉ (groups.getD i ⟨"", []⟩).«matches») := by
  obtain ⟨tembs, hte, hgr⟩ := group_by_similarity_ok env texts images groups hne hok
  obtain ⟨htlen, _⟩ := embedTexts_ok env (validTexts texts) tembs hte
  obtain ⟨hilen, _⟩ := embedImages_align env images
  have hglen : groups.length = tembs.length := by rw [hgr]; simp
  have hsub : ∀ i, i < groups.length →
      List.Sublist (groups.getD i ⟨"", []⟩).«matches» (embedImages env images).2 := by
    intro i hi
    rw [hgr, getD_range_map _ _ i (hglen ▸ hi)]
    rw [show (embedImages env images).1.length = (embedImages env images).2.length
      from hilen]
    refine filterMap_range_sublist "" (embedImages env images).2 _ ?_
    intro j a h
    by_cases hc : 1 - threshold
        < dot (tembs.getD i []) ((embedImages env images).1.getD j [])
    · rw [if_pos hc] at h
      injection h with h
      exact h.symm
    · rw [if_neg hc] at h
      exact absurd h (by simp)
  refine ⟨by rw [hglen, htlen], ?_, hsub, ?_, ?_⟩
  · intro i hi
    rw [hgr, getD_range_map _ _ i (hglen ▸ hi)]
  · intro url hmem
    obtain ⟨h1, _, h3⟩ := embedImages_mem env images url hmem
    exact ⟨h1, h3⟩
  · intro i url e hi herr hmem
    have hurl := (hsub i hi).subset hmem
    obtain ⟨_, _, v, hv⟩ := embedImages_mem env images url hurl
    rw [herr] at hv
    exact absurd hv (by simp)

/-- Witness for C4: one valid text, one failing and one succeeding URL. -/
theorem C4_output_shape_witness :
    ([{ text := "a red apple", «matches» := ["http://apple.jpg"] }] : List Group).length
        = (validTexts ["a red apple"]).length
    ∧ (∀ i, i < ([{ text := "a red apple", «matches» := ["http://apple.jpg"] }] :
          List Group).length →
        (([{ text := "a red apple", «matches» := ["http://apple.jpg"] }] :
            List Group).getD i ⟨"", []⟩).text = (validTexts ["a red apple"]).getD i "")
    ∧ (∀ i, i < ([{ text := "a red apple", «matches» := ["http://apple.jpg"] }] :
          List Group).length →
        List.Sublist (([{ text := "a red apple", «matches» := ["http://apple.jpg"] }] :
            List Group).getD i ⟨"", []⟩).«matches»
          (embedImages demoEnv ["http://bad", "http://apple.jpg"]).2)
    ∧ (∀ url, url ∈ (embedImages demoEnv ["http://bad", "http://apple.jpg"]).2 →
        url ∈ ["http://bad", "http://apple.jpg"]
          ∧ ∃ v, demoEnv.imageEmbed url = Except.ok v)
    ∧ (∀ i url e, i < ([{ text := "a red apple", «matches» := ["http://apple.jpg"] }] :
          List Group).length →
        demoEnv.imageEmbed url = Except.error e →
        url ∉ (([{ text := "a red apple", «matches» := ["http://apple.jpg"] }] :
            List Group).getD i ⟨"", []⟩).«matches») :=
  C4_output_shape demoEnv ["a red apple"] ["http://bad", "http://apple.jpg"]
    [{ text := "a red apple", «matches» := ["http://apple.jpg"] }]
    (by decide)
    (by simp +decide [group_by_similarity, demoEnv, validTexts, embedTexts, embedImages,
          hasContent, threshold]
        norm_num [dot, List.range_succ, List.filterMap_cons, List.filterMap_nil])

/-- C8: whenever no image embeds successfully — in particular whenever the
images list is empty — every entry of a successful group-threshold response
has an empty matches list. -/
theorem C8_no_successful_image (env : ClipEnv) (texts images : List String)
    (groups : List Group)
    (hne : texts.all (fun text => !hasContent text) = false)
    (hfail : ∀ url, url ∈ images → ∀ v, env.imageEmbed url ≠ Except.ok v)
    (hok : group_by_similarity env texts images = Except.ok groups) :
    ∀ g, g ∈ groups → g.«matches» = [] := by
  intro g hg
  obtain ⟨tembs, hte, hgr⟩ := group_by_similarity_ok env texts images groups hne hok
  have hemb : embedImages env images = ([], []) := embedImages_all_fail env images hfail
  rw [hgr] at hg
  obtain ⟨i, hirange, hgi⟩ := List.mem_map.mp hg
  rw [← hgi]
  simp [hemb]

/-- Witness for C8 at a concrete request with an empty images list. -/
theorem C8_no_successful_image_witness :
    ({ text := "a red apple", «matches» := [] } : Group).«matches» = [] :=
  C8_no_successful_image demoEnv ["a red apple"] []
    [{ text := "a red apple", «matches» := [] }]
    (by decide) (by intro url h v; simp at h)
    (by simp +decide [group_by_similarity, demoEnv, validTexts, embedTexts, embedImages,
          hasContent, threshold]
        try norm_num [dot, List.range_succ, List.filterMap_cons, List.filterMap_nil])
    { text := "a red apple", «matches» := [] } (by simp)

/-- The label selected by argmax over the similarity scores of a nonempty
candidate set is a member of that candidate set. -/
theorem getD_argmax_mem (cats : List String) (v : List ℚ) (cn : List (List ℚ))
    (hlen : cn.length = cats.length) (hpos : 0 < cats.length) :
    cats.getD (argmaxIdx (cosine_similarities v cn)) "" ∈ cats := by
  have hslen : (cosine_similarities v cn).length = cats.length := by
    simp [cosine_similarities, hlen]
  have hne : cosine_similarities v cn ≠ [] := by
    intro h
    rw [h] at hslen
    simp at hslen
    omega
  have hidx := (argmaxIdx_spec (cosine_similarities v cn) hne).1
  rw [hslen] at hidx
  rw [List.getD_eq_getElem _ _ hidx]
  exact List.getElem_mem hidx

/-- C3: every art-style record draws its `style` from the 14 fixed labels
exactly when no `error` field is present, and carries exactly the sentinel
`"unknown"` exactly when an `error` field is present; on success the chosen
label sits at the argmax index of the 14 similarity scores — an in-bounds
index whose score is maximal and strictly above every earlier score, so
ties break to the first-occurring label. -/
theorem C3_style_field (env : ClipEnv) (images : List String) (r : StyleResult)
    (hr : r ∈ classify_art_style env images) :
    (r.style ∈ art_styles ↔ r.error = none)
    ∧ (r.style = "unknown" ↔ r.error ≠ none)
    ∧ (r.error = none → ∃ v sn,
        env.imageEmbed r.image = Except.ok v
        ∧ embedTexts env art_styles = Except.ok sn
        ∧ r.style = art_styles.getD (argmaxIdx (cosine_similarities v sn)) ""
        ∧ argmaxIdx (cosine_similarities v sn) < (cosine_similarities v sn).length
        ∧ (∀ k, k < (cosine_similarities v sn).length →
            (cosine_similarities v sn).getD k 0
              ≤ (cosine_similarities v sn).getD (argmaxIdx (cosine_similarities v sn)) 0)
        ∧ (∀ k, k < argmaxIdx (cosine_similarities v sn) →
            (cosine_similarities v sn).getD k 0
              < (cosine_similarities v sn).getD (argmaxIdx (cosine_similarities v sn)) 0)) := by
  obtain ⟨url, hmemu, hws, hitem⟩ := classify_art_style_mem env images r hr
  have hunk : ("unknown" : String) ∉ art_styles := by decide
  rcases style_item_cases env url with ⟨r0, hres, heq⟩ | ⟨e, hres, heq⟩
  · obtain ⟨v, sn, hv, hsn, hr0⟩ := style_item_result_ok env url r0 hres
    have hsnlen := (embedTexts_ok env art_styles sn hsn).1
    have hslen : (cosine_similarities v sn).length = art_styles.length := by
      simp [cosine_similarities, hsnlen]
    have hsne : cosine_similarities v sn ≠ [] := by
      intro h
      rw [h] at hslen
      simp [art_styles] at hslen
    obtain ⟨hidx, hmax, hfirst⟩ := argmaxIdx_spec (cosine_similarities v sn) hsne
    have hstyle_mem :
        art_styles.getD (argmaxIdx (cosine_similarities v sn)) "" ∈ art_styles := by
      have hidx' : argmaxIdx (cosine_similarities v sn) < art_styles.length := by
        rw [← hslen]
        exact hidx
      rw [List.getD_eq_getElem _ _ hidx']
      exact List.getElem_mem hidx'
    have hrr : r = r0 := hitem.trans heq
    rw [hrr, hr0]
    exact ⟨⟨fun _ => rfl, fun _ => hstyle_mem⟩,
           ⟨fun h => (hunk (h ▸ hstyle_mem)).elim, fun h => (h rfl).elim⟩,
           fun _ => ⟨v, sn, hv, hsn, rfl, hidx, hmax, hfirst⟩⟩
  · have hrr : r = { image := url
                     style := "unknown"
                     confidence := 0
                     error := some ("Failed to process image: " ++ e) } := hitem.trans heq
    rw [hrr]
    exact ⟨⟨fun h => (hunk h).elim, fun h => Option.noConfusion h⟩,
           ⟨fun _ hc => Option.noConfusion hc, fun _ => rfl⟩,
           fun h => Option.noConfusion h⟩

/-- Witness for C3 at a successfully classified image. -/
theorem C3_style_field_witness :
    (demoStyleRec.style ∈ art_styles ↔ demoStyleRec.error = none)
    ∧ (demoStyleRec.style = "unknown" ↔ demoStyleRec.error ≠ none)
    ∧ (demoStyleRec.error = none → ∃ v sn,
        demoEnv.imageEmbed demoStyleRec.image = Except.ok v
        ∧ embedTexts demoEnv art_styles = Except.ok sn
        ∧ demoStyleRec.style = art_styles.getD (argmaxIdx (cosine_similarities v sn)) ""
        ∧ argmaxIdx (cosine_similarities v sn) < (cosine_similarities v sn).length
        ∧ (∀ k, k < (cosine_similarities v sn).length →
            (cosine_similarities v sn).getD k 0
              ≤ (cosine_similarities v sn).getD (argmaxIdx (cosine_similarities v sn)) 0)
        ∧ (∀ k, k < argmaxIdx (cosine_similarities v sn) →
            (cosine_similarities v sn).getD k 0
              < (cosine_similarities v sn).getD (argmaxIdx (cosine_similarities v sn)) 0)) :=
  C3_style_field demoEnv ["http://apple.jpg"] demoStyleRec
    (by simp +decide [classify_art_style, style_item, style_item_result, embedTexts,
          demoEnv, demoStyleRec, hasContent, art_styles]
        norm_num [cosine_similarities, dot, argmaxIdx, argmaxAux])

/-- C6: whenever the fetch-decode-embed pipeline of an attempted
(non-whitespace) URL raises, the art-style endpoint emits for that URL the
record with the URL, style exactly `"unknown"`, confidence exactly `0`, and
a non-empty error string, and the records of all other URLs, before and
after, are exactly what they would have been on their own. -/
theorem C6_style_error_isolation (env : ClipEnv) (pre suf : List String) (url e : String)
    (hws : hasContent url = true) (hf : env.imageEmbed url = Except.error e) :
    classify_art_style env (pre ++ url :: suf)
      = classify_art_style env pre
        ++ { image := url
             style := "unknown"
             confidence := 0
             error := some ("Failed to process image: " ++ e) }
          :: classify_art_style env suf
    ∧ ("Failed to process image: " ++ e) ≠ "" := by
  constructor
  · rw [classify_art_style_append]
    congr 1
    rw [show classify_art_style env (url :: suf)
        = style_item env url :: classify_art_style env suf by
      simp [classify_art_style, hws]]
    congr 1
    have hres : style_item_result env url = Except.error e := by
      unfold style_item_result
      rw [hf]
    unfold style_item
    rw [hres]
  · exact failure_message_ne_empty e

/-- Witness for C6: a failing URL between a processed prefix and suffix. -/
theorem C6_style_error_isolation_witness :
    classify_art_style demoEnv (["http://apple.jpg"] ++ "http://bad" :: [])
      = classify_art_style demoEnv ["http://apple.jpg"]
        ++ { image := "http://bad"
             style := "unknown"
             confidence := 0
             error := some ("Failed to process image: " ++ "iboom") }
          :: classify_art_style demoEnv []
    ∧ ("Failed to process image: " ++ "iboom") ≠ "" :=
  C6_style_error_isolation demoEnv ["http://apple.jpg"] [] "http://bad" "iboom"
    (by decide) (by simp [demoEnv])

/-- C9: each endpoint is a deterministic function of the request and of the
external oracle outcomes: two environments whose text and image embedding
functions agree elementwise produce identical responses on the same inputs
for all three endpoints (the unused `random` import notwithstanding, no
randomness or hidden state enters any endpoint). -/
theorem C9_deterministic (env1 env2 : ClipEnv) (texts images : List String)
    (ht : env1.textEmbed = env2.textEmbed) (hi : env1.imageEmbed = env2.imageEmbed) :
    group_by_similarity env1 texts images = group_by_similarity env2 texts images
    ∧ classify_art_style env1 images = classify_art_style env2 images
    ∧ classify_mood_theme env1 texts images = classify_mood_theme env2 texts images := by
  have henv : env1 = env2 := by
    cases env1 with
    | mk t1 i1 =>
      cases env2 with
      | mk t2 i2 =>
        rw [show t1 = t2 from ht, show i1 = i2 from hi]
  rw [henv]
  exact ⟨rfl, rfl, rfl⟩

/-- Witness for C9 at a concrete request. -/
theorem C9_deterministic_witness :
    group_by_similarity demoEnv ["a red apple"] ["http://apple.jpg"]
      = group_by_similarity demoEnv ["a red apple"] ["http://apple.jpg"]
    ∧ classify_art_style demoEnv ["http://apple.jpg"]
      = classify_art_style demoEnv ["http://apple.jpg"]
    ∧ classify_mood_theme demoEnv ["a red apple"] ["http://apple.jpg"]
      = classify_mood_theme demoEnv ["a red apple"] ["http://apple.jpg"] :=
  C9_deterministic demoEnv demoEnv ["a red apple"] ["http://apple.jpg"] rfl rfl

/-- C5: a successful mood/theme response is exactly the text records (one
per non-whitespace text, in input order, carrying the text as `content` and
tagged `type = "text"`) followed by the image records (one per non-whitespace
URL, in input order, tagged `type = "image"`); every record without an
`error` field carries all four classification fields, with `mood` the argmax
over the 8 mood-category similarities and `theme` an independently computed
argmax over the 10 theme-category similarities of the same embedding, so
`mood` lies in the 8-label set and `theme` in the 10-label set. -/
theorem C5_mood_theme_shape (env : ClipEnv) (texts images : List String)
    (results : List MoodResult)
    (hok : classify_mood_theme env texts images = Except.ok results) :
    ∃ tr, process_texts env texts = Except.ok tr
      ∧ results = tr ++ process_images env images
      ∧ tr.map MoodResult.content = validTexts texts
      ∧ (∀ r, r ∈ tr → r.type = "text")
      ∧ (process_images env images).map MoodResult.content = validUrls images
      ∧ (∀ r, r ∈ process_images env images → r.type = "image")
      ∧ (∀ r, r ∈ results → r.error = none → ∃ v mn tn,
          embedTexts env mood_categories = Except.ok mn
          ∧ embedTexts env theme_categories = Except.ok tn
          ∧ ((r.type = "text" ∧ env.textEmbed r.content = Except.ok v)
             ∨ (r.type = "image" ∧ env.imageEmbed r.content = Except.ok v))
          ∧ r.mood = some (mood_categories.getD (argmaxIdx (cosine_similarities v mn)) "")
          ∧ r.theme = some (theme_categories.getD (argmaxIdx (cosine_similarities v tn)) "")
          ∧ r.mood_confidence
              = some ((cosine_similarities v mn).getD (argmaxIdx (cosine_similarities v mn)) 0)
          ∧ r.theme_confidence
              = some ((cosine_similarities v tn).getD (argmaxIdx (cosine_similarities v tn)) 0)
          ∧ (∃ m, r.mood = some m ∧ m ∈ mood_categories)
          ∧ (∃ th, r.theme = some th ∧ th ∈ theme_categories)) := by
  unfold classify_mood_theme at hok
  cases hpt : process_texts env texts with
  | error e => rw [hpt] at hok; simp at hok
  | ok tr =>
    rw [hpt] at hok
    simp only [Except.ok.injEq] at hok
    obtain ⟨hmap_t, hmem_t⟩ := process_texts_ok env texts tr hpt
    obtain ⟨hmap_i, hmem_i⟩ := process_images_ok env images
    refine ⟨tr, rfl, hok.symm, hmap_t, ?_, hmap_i, ?_, ?_⟩
    · intro r hr
      obtain ⟨t, _, _, hti⟩ := hmem_t r hr
      obtain ⟨v, mn, tn, _, _, _, hshape⟩ := text_item_ok env t r hti
      rw [hshape]
    · intro r hr
      obtain ⟨url, _, _, hrr⟩ := hmem_i r hr
      rw [hrr]
      exact (image_item_fields env url).1
    · intro r hrres herr
      rw [← hok] at hrres
      rcases List.mem_append.mp hrres with hrt | hri
      · obtain ⟨t, _, _, hti⟩ := hmem_t r hrt
        obtain ⟨v, mn, tn, hv, hmn, htn, hshape⟩ := text_item_ok env t r hti
        have hmood_mem := getD_argmax_mem mood_categories v mn
          (embedTexts_ok env mood_categories mn hmn).1 (by decide)
        have htheme_mem := getD_argmax_mem theme_categories v tn
          (embedTexts_ok env theme_categories tn htn).1 (by decide)
        rw [hshape]
        exact ⟨v, mn, tn, hmn, htn, Or.inl ⟨rfl, hv⟩, rfl, rfl, rfl, rfl,
          ⟨_, rfl, hmood_mem⟩, ⟨_, rfl, htheme_mem⟩⟩
      · obtain ⟨url, _, _, hrr⟩ := hmem_i r hri
        rcases image_item_cases env url with ⟨r0, hres, heq⟩ | ⟨e, hres, heq⟩
        · obtain ⟨v, mn, tn, hv, hmn, htn, hshape⟩ := image_item_result_ok env url r0 hres
          have hmood_mem := getD_argmax_mem mood_categories v mn
            (embedTexts_ok env mood_categories mn hmn).1 (by decide)
          have htheme_mem := getD_argmax_mem theme_categories v tn
            (embedTexts_ok env theme_categories tn htn).1 (by decide)
          rw [hrr, heq, hshape]
          exact ⟨v, mn, tn, hmn, htn, Or.inr ⟨rfl, hv⟩, rfl, rfl, rfl, rfl,
            ⟨_, rfl, hmood_mem⟩, ⟨_, rfl, htheme_mem⟩⟩
        · rw [hrr, heq] at herr
          exact absurd herr (by simp)

/-- Witness for C5 at one valid text and one failing image URL. -/
theorem C5_mood_theme_shape_witness :
    ∃ tr, process_texts demoEnv ["a red apple"] = Except.ok tr
      ∧ [demoTextRec, demoImageErrRec] = tr ++ process_images demoEnv ["http://bad"]
      ∧ tr.map MoodResult.content = validTexts ["a red apple"]
      ∧ (∀ r, r ∈ tr → r.type = "text")
      ∧ (process_images demoEnv ["http://bad"]).map MoodResult.content
          = validUrls ["http://bad"]
      ∧ (∀ r, r ∈ process_images demoEnv ["http://bad"] → r.type = "image")
      ∧ (∀ r, r ∈ [demoTextRec, demoImageErrRec] → r.error = none → ∃ v mn tn,
          embedTexts demoEnv mood_categories = Except.ok mn
          ∧ embedTexts demoEnv theme_categories = Except.ok tn
          ∧ ((r.type = "text" ∧ demoEnv.textEmbed r.content = Except.ok v)
             ∨ (r.type = "image" ∧ demoEnv.imageEmbed r.content = Except.ok v))
          ∧ r.mood = some (mood_categories.getD (argmaxIdx (cosine_similarities v mn)) "")
          ∧ r.theme = some (theme_categories.getD (argmaxIdx (cosine_similarities v tn)) "")
          ∧ r.mood_confidence
              = some ((cosine_similarities v mn).getD (argmaxIdx (cosine_similarities v mn)) 0)
          ∧ r.theme_confidence
              = some ((cosine_similarities v tn).getD (argmaxIdx (cosine_similarities v tn)) 0)
          ∧ (∃ m, r.mood = some m ∧ m ∈ mood_categories)
          ∧ (∃ th, r.theme = some th ∧ th ∈ theme_categories)) :=
  C5_mood_theme_shape demoEnv ["a red apple"] ["http://bad"] [demoTextRec, demoImageErrRec]
    (by simp +decide [classify_mood_theme, process_texts, process_images, text_item,
          image_item, image_item_result, embedTexts, demoEnv, demoTextRec, demoImageErrRec,
          hasContent, mood_categories, theme_categories]
        norm_num [cosine_similarities, dot, argmaxIdx, argmaxAux])

/-- C7: in the mood/theme endpoint a record carrying an `error` field is
always an image record carrying only `type`, `content` and `error` (no mood,
theme or confidence fields), and a `type = "text"` record never carries an
`error` field; a failing image URL yields exactly the three-field failure
record while leaving all other records untouched; and a model failure on an
attempted text propagates as a failure of the whole endpoint, since the
texts loop has no per-item failure boundary. -/
theorem C7_failure_boundaries (env : ClipEnv) (texts images : List String) :
    (∀ results r, classify_mood_theme env texts images = Except.ok results → r ∈ results →
        (r.error.isSome = true → r.type = "image" ∧ r.mood = none ∧ r.theme = none
          ∧ r.mood_confidence = none ∧ r.theme_confidence = none)
        ∧ (r.type = "text" → r.error = none))
    ∧ (∀ pre suf url e, hasContent url = true → env.imageEmbed url = Except.error e →
        process_images env (pre ++ url :: suf)
          = process_images env pre
            ++ { type := "image"
                 content := url
                 mood := none
                 theme := none
                 mood_confidence := none
                 theme_confidence := none
                 error := some ("Failed to process image: " ++ e) }
              :: process_images env suf)
    ∧ (∀ t e, t ∈ texts → hasContent t = true → env.textEmbed t = Except.error e →
        ∃ msg, classify_mood_theme env texts images = Except.error msg) := by
  refine ⟨?_, ?_, ?_⟩
  · intro results r hok hr
    unfold classify_mood_theme at hok
    cases hpt : process_texts env texts with
    | error e => rw [hpt] at hok; simp at hok
    | ok tr =>
      rw [hpt] at hok
      simp only [Except.ok.injEq] at hok
      rw [← hok] at hr
      rcases List.mem_append.mp hr with hrt | hri
      · obtain ⟨t, _, _, hti⟩ := (process_texts_ok env texts tr hpt).2 r hrt
        obtain ⟨v, mn, tn, _, _, _, hshape⟩ := text_item_ok env t r hti
        rw [hshape]
        exact ⟨fun h => by simp at h, fun _ => rfl⟩
      · obtain ⟨url, _, _, hrr⟩ := (process_images_ok env images).2 r hri
        rcases image_item_cases env url with ⟨r0, hres, heq⟩ | ⟨e, hres, heq⟩
        · obtain ⟨v, mn, tn, _, _, _, hshape⟩ := image_item_result_ok env url r0 hres
          rw [hrr, heq, hshape]
          exact ⟨fun h => by simp at h, fun _ => rfl⟩
        · rw [hrr, heq]
          exact ⟨fun _ => ⟨rfl, rfl, rfl, rfl, rfl⟩, fun h => by simp at h⟩
  · intro pre suf url e hws hf
    rw [process_images_append]
    congr 1
    rw [show process_images env (url :: suf)
        = image_item env url :: process_images env suf by
      simp [process_images, hws]]
    congr 1
    have hres : image_item_result env url = Except.error e := by
      unfold image_item_result
      rw [hf]
    unfold image_item
    rw [hres]
  · intro t e hmem hws hf
    obtain ⟨msg, hmsg⟩ := process_texts_fail env texts t e hmem hws hf
    refine ⟨msg, ?_⟩
    unfold classify_mood_theme
    rw [hmsg]

/-- Witness for C7 at a concrete request. -/
theorem C7_failure_boundaries_witness :
    (∀ results r,
        classify_mood_theme demoEnv ["a red apple"] ["http://bad"] = Except.ok results →
        r ∈ results →
        (r.error.isSome = true → r.type = "image" ∧ r.mood = none ∧ r.theme = none
          ∧ r.mood_confidence = none ∧ r.theme_confidence = none)
        ∧ (r.type = "text" → r.error = none))
    ∧ (∀ pre suf url e, hasContent url = true → demoEnv.imageEmbed url = Except.error e →
        process_images demoEnv (pre ++ url :: suf)
          = process_images demoEnv pre
            ++ { type := "image"
                 content := url
                 mood := none
                 theme := none
                 mood_confidence := none
                 theme_confidence := none
                 error := some ("Failed to process image: " ++ e) }
              :: process_images demoEnv suf)
    ∧ (∀ t e, t ∈ ["a red apple"] → hasContent t = true →
        demoEnv.textEmbed t = Except.error e →
        ∃ msg, classify_mood_theme demoEnv ["a red apple"] ["http://bad"]
          = Except.error msg) :=
  C7_failure_boundaries demoEnv ["a red apple"] ["http://bad"]

end MindMesh
